import Mathlib

/-!
Verification of the retrieval-augmented-answer CLI (src/index.js).

JavaScript numbers are modelled as real numbers (ℝ), `Math.sqrt` as
`Real.sqrt`, `Array.prototype.reduce((s,v) => s+v, 0)` as `List.foldl`.
External HTTP calls are modelled as oracle parameters.  A value that may
or may not be a JS array is modelled by `JsVal`.
-/

set_option maxRecDepth 4000

namespace RagLLM

/-- A JavaScript value as seen by `cosineSimilarity`: either an array of
numbers, or anything falsy / non-array (`undefined`, `null`, an object, …),
which the source rejects with `!vecA || !vecB || !Array.isArray(…)`. -/
inductive JsVal where
  | arr (v : List ℝ)
  | notArr

/-- Model of `cosineSimilarity(vecA, vecB)`, src/index.js lines 140–173.
Non-arrays give 0; `length = Math.min(a.length, b.length)`; the dot
product is `Array.from({length}, (_, i) => vecA[i]*vecB[i]).reduce(+, 0)`
(modelled by `zipWith (· * ·)`, which pairs exactly the indices `i < length`);
the norms square-root the `reduce` over `slice(0, length)` (modelled by
`List.take length`); zero norm on either side gives 0. -/
noncomputable def cosineSimilarity (vecA vecB : JsVal) : ℝ :=
  match vecA, vecB with
  | .arr a, .arr b =>
    let length := min a.length b.length
    if length = 0 then 0
    else
      let dotProduct := (List.zipWith (fun x y => x * y) a b).foldl (fun sum val => sum + val) 0
      let normA := Real.sqrt ((a.take length).foldl (fun sum x => sum + x * x) 0)
      let normB := Real.sqrt ((b.take length).foldl (fun sum x => sum + x * x) 0)
      if normA = 0 ∨ normB = 0 then 0
      else dotProduct / (normA * normB)
  | _, _ => 0

/-- A loaded document: `{ filename, content }`. -/
structure Document where
  filename : String
  content : String
deriving Repr, DecidableEq

/-- A document augmented with its similarity score: `{ ...doc, score }`. -/
structure ScoredDoc where
  filename : String
  content : String
  score : ℝ

/-- Outcome of the one `fetch` to the embedding endpoint inside
`generateEmbeddings`: a successful response carrying
`result.data[0].embedding`, a non-ok HTTP status (the code then throws and
catches), or a transport / JSON-parsing rejection (also caught). -/
inductive FetchOutcome where
  | success (embedding : List ℝ)
  | httpError
  | transportError

/-- Model of `generateEmbeddings(text)`, src/index.js lines 30–62, as a function
of the fetch outcome for that text: the successful response's embedding, or
the fallback `new Array(512).fill(0)` when anything in the `try` block
fails. -/
def generateEmbeddings (o : FetchOutcome) : List ℝ :=
  match o with
  | .success embedding => embedding
  | .httpError => List.replicate 512 0
  | .transportError => List.replicate 512 0

/-- Model of `getEmbedding(text)` (lines 130–138): it just logs and delegates to
`generateEmbeddings`. -/
def getEmbedding (o : FetchOutcome) : List ℝ := generateEmbeddings o

/-- An embedding oracle as the retriever sees it: for a given text,
`await getEmbedding(text)` either returns a JS value or throws. -/
def EmbOracle : Type := String → Except Unit JsVal

/-- The `docsWithScores` stage (lines 107–118): each document is embedded
and scored against the query embedding inside a per-document `try`; a throw
is caught and the document scored 0. -/
noncomputable def scoreDocuments (emb : EmbOracle) (queryEmbedding : JsVal)
    (documents : List Document) : List ScoredDoc :=
  documents.map (fun doc =>
    match emb doc.content with
    | .ok embedding =>
      { filename := doc.filename, content := doc.content
        score := cosineSimilarity queryEmbedding embedding }
    | .error _ =>
      { filename := doc.filename, content := doc.content, score := 0 })

/-- Lines 121–123: `.filter((doc) => doc.score > 0.5).sort((a, b) => b.score - a.score)`.
The comparator sorts descending by score; JS engines' `sort` is stable, so it
is modelled by a stable sort under the relation "left score ≥ right score". -/
noncomputable def rankAndFilter (docsWithScores : List ScoredDoc) : List ScoredDoc :=
  (docsWithScores.filter (fun doc => decide (doc.score > 0.5))).insertionSort
    (fun a b => b.score ≤ a.score)

/-- The comparator's order is total. -/
instance : IsTotal ScoredDoc (fun a b => b.score ≤ a.score) :=
  ⟨fun a b => le_total b.score a.score⟩

/-- The comparator's order is transitive. -/
instance : IsTrans ScoredDoc (fun a b => b.score ≤ a.score) :=
  ⟨fun _ _ _ hab hbc => le_trans hbc hab⟩

/-- Model of `retrieveRelevantDocsWithEmbeddings(query, documents)` (lines 96–128):
the query is embedded; a throw hits the outer `catch` (→ `[]`); a non-array
query embedding hits the explicit early exit (→ `[]`); otherwise the
documents are scored, filtered by `score > 0.5` and sorted descending. -/
noncomputable def retrieveRelevantDocsWithEmbeddings (emb : EmbOracle)
    (query : String) (documents : List Document) : List ScoredDoc :=
  match emb query with
  | .error _ => []
  | .ok .notArr => []
  | .ok (.arr qv) =>
    rankAndFilter (scoreDocuments emb (.arr qv) documents)

/-- A directory entry as `loadDocuments` sees it: the filename and the
outcome of `JSON.parse(readFileSync(...))` — a throw, or a parsed record
whose `data` field may be absent. -/
structure RawFile where
  name : String
  parsed : Except Unit (Option String)

/-- The `file.endsWith(".json")` check of line 83, as a suffix test over
the filename's characters (extensionally the same test; `String.endsWith`
itself does not reduce inside the kernel). -/
def endsWithJson (name : String) : Bool :=
  List.isSuffixOf ".json".data name.data

/-- Model of `loadDocuments()` (lines 79–94), as a function of the directory
listing: keep files ending in `.json`, and map each to a `Document` whose
content is `content.data || ""` on success and `""` when reading/parsing
throws (per-file `catch`). -/
def loadDocuments (files : List RawFile) : List Document :=
  (files.filter (fun f => endsWithJson f.name)).map (fun f =>
    match f.parsed with
    | .ok d => { filename := f.name, content := d.getD "" }
    | .error _ => { filename := f.name, content := "" })

/-- What one run of `main()` (lines 201–224) does after retrieval: either
the "No relevant documents found." early return, or an answer generated
from the joined context. -/
inductive MainOutcome where
  | noRelevantDocs
  | answered (context : String) (answer : String)

/-- Model of `main()` from line 206 on: retrieve, early-return when the
list is empty, otherwise build `context = relevantDocs.map(d => d.content).join("\n\n")`
and call the answer generator (an oracle `generate`) on `(query, context)`. -/
noncomputable def mainRun (emb : EmbOracle) (generate : String → String → String)
    (query : String) (documents : List Document) : MainOutcome :=
  let relevantDocs := retrieveRelevantDocsWithEmbeddings emb query documents
  if relevantDocs.length = 0 then
    .noRelevantDocs
  else
    let context := String.intercalate "\n\n" (relevantDocs.map (fun doc => doc.content))
    .answered context (generate query context)

/-- The embedding oracle induced by the real `getEmbedding`: it never
throws and always yields an array (`generateEmbeddings` returns from both
branches of its `try`/`catch`). -/
def embVia (oracle : String → FetchOutcome) : EmbOracle :=
  fun text => .ok (.arr (getEmbedding (oracle text)))

/-! ### Helper lemmas -/

/-- Folds of the form `reduce((sum, v) => sum + v, 0)` are list sums. -/
lemma foldl_add_eq_sum {α : Type} (f : α → ℝ) (l : List α) (init : ℝ) :
    l.foldl (fun sum x => sum + f x) init = init + (l.map f).sum := by
  induction l generalizing init with
  | nil => simp
  | cons x xs ih => simp [ih, add_assoc]

/-- The dot-product fold in `cosineSimilarity`, as a list sum. -/
lemma dot_foldl (a b : List ℝ) :
    (List.zipWith (fun x y => x * y) a b).foldl (fun sum val => sum + val) 0
      = (List.zipWith (fun x y => x * y) a b).sum := by
  simpa using foldl_add_eq_sum id (List.zipWith (fun x y => x * y) a b) 0

/-- The squared-norm fold in `cosineSimilarity`, as a sum of squares. -/
lemma normSq_foldl (l : List ℝ) :
    l.foldl (fun sum x => sum + x * x) 0 = (l.map (fun x => x * x)).sum := by
  simpa using foldl_add_eq_sum (fun x => x * x) l 0

/-- A sum over a mapped list as a `Finset.range` sum over indices. -/
lemma sum_map_eq_sum_range (f : ℝ → ℝ) :
    ∀ l : List ℝ, (l.map f).sum = ∑ i ∈ Finset.range l.length, f (l.getD i 0)
  | [] => by simp
  | x :: xs => by
    rw [List.map_cons, List.sum_cons, List.length_cons, Finset.sum_range_succ']
    simp [sum_map_eq_sum_range f xs, add_comm]

/-- The `dotProduct` constant of `cosineSimilarity`, as a list sum. -/
noncomputable def dotOver (a b : List ℝ) : ℝ :=
  (List.zipWith (fun x y => x * y) a b).sum

/-- The `normA` / `normB` constants of `cosineSimilarity`: the square root
of the sum of squares over `slice(0, length)`. -/
noncomputable def normOver (l : List ℝ) (length : ℕ) : ℝ :=
  Real.sqrt (((l.take length).map (fun x => x * x)).sum)

/-- Evaluation of `cosineSimilarity` on two arrays, with its folds written as sums. -/
lemma cosineSimilarity_arr_arr (a b : List ℝ) :
    cosineSimilarity (.arr a) (.arr b) =
      if min a.length b.length = 0 then 0
      else if normOver a (min a.length b.length) = 0 ∨
              normOver b (min a.length b.length) = 0 then 0
      else dotOver a b /
            (normOver a (min a.length b.length) * normOver b (min a.length b.length)) := by
  simp only [cosineSimilarity, dotOver, normOver, dot_foldl, normSq_foldl]

/-- A prefix norm of an all-zero list is zero. -/
lemma normOver_eq_zero_of_all_zero {l : List ℝ} (length : ℕ)
    (h : ∀ x ∈ l, x = 0) : normOver l length = 0 := by
  unfold normOver
  rw [List.sum_eq_zero, Real.sqrt_zero]
  intro x hx
  obtain ⟨y, hy, rfl⟩ := List.mem_map.mp hx
  rw [h y (List.mem_of_mem_take hy), mul_zero]

/-- Cosine similarity against an all-zero left array is 0. -/
lemma cosineSimilarity_all_zero_left (a b : List ℝ) (h : ∀ x ∈ a, x = 0) :
    cosineSimilarity (.arr a) (.arr b) = 0 := by
  rw [cosineSimilarity_arr_arr]
  rcases eq_or_ne (min a.length b.length) 0 with h0 | h0
  · simp [h0]
  · simp [h0, normOver_eq_zero_of_all_zero _ h]

/-- Cosine similarity against an all-zero right array is 0. -/
lemma cosineSimilarity_all_zero_right (a b : List ℝ) (h : ∀ x ∈ b, x = 0) :
    cosineSimilarity (.arr a) (.arr b) = 0 := by
  rw [cosineSimilarity_arr_arr]
  rcases eq_or_ne (min a.length b.length) 0 with h0 | h0
  · simp [h0]
  · simp [h0, normOver_eq_zero_of_all_zero _ h]

/-- A list with a nonzero entry has positive sum of squares. -/
lemma sum_sq_pos_of_exists_ne_zero {v : List ℝ} (h : ∃ x ∈ v, x ≠ 0) :
    0 < ((v.map (fun x => x * x)).sum) := by
  obtain ⟨x, hx, hne⟩ := h
  have hle : x * x ≤ (v.map (fun x => x * x)).sum :=
    List.single_le_sum (by
      intro y hy
      obtain ⟨z, _, rfl⟩ := List.mem_map.mp hy
      exact mul_self_nonneg z) _ (List.mem_map_of_mem _ hx)
  have hpos : 0 < x * x := mul_self_pos.mpr hne
  linarith

/-- Negating inside a map negates the sum. -/
lemma sum_map_neg (f : ℝ → ℝ) (l : List ℝ) :
    (l.map (fun x => -(f x))).sum = -((l.map f).sum) := by
  induction l with
  | nil => simp
  | cons x xs ih => simp [ih, neg_add, add_comm]

/-- The dot-product sum pairs exactly the indices below the common length. -/
lemma zipWith_mul_sum_range :
    ∀ a b : List ℝ, (List.zipWith (fun x y => x * y) a b).sum
      = ∑ i ∈ Finset.range (min a.length b.length), a.getD i 0 * b.getD i 0
  | [], b => by simp
  | x :: xs, [] => by simp
  | x :: xs, y :: ys => by
    rw [List.zipWith_cons_cons, List.sum_cons, List.length_cons, List.length_cons,
      Nat.succ_min_succ, Finset.sum_range_succ']
    simp [zipWith_mul_sum_range xs ys, add_comm]

/-- The squared-norm sum over `slice(0, L)` is a sum of squares over `i < L`. -/
lemma normSq_take_eq_sum_range (l : List ℝ) (L : ℕ) (hL : L ≤ l.length) :
    ((l.take L).map (fun x => x * x)).sum = ∑ i ∈ Finset.range L, l.getD i 0 ^ 2 := by
  rw [sum_map_eq_sum_range, List.length_take, Nat.min_eq_left hL]
  refine Finset.sum_congr rfl (fun i hi => ?_)
  rw [Finset.mem_range] at hi
  simp only [List.getD_eq_getElem?_getD, List.getElem?_take_of_lt hi, pow_two]

/-- Truncating both arguments to the common length leaves the dot product
unchanged. -/
lemma dotOver_take (a b : List ℝ) :
    dotOver (a.take (min a.length b.length)) (b.take (min a.length b.length))
      = dotOver a b := by
  unfold dotOver
  rw [← List.take_zipWith, List.take_of_length_le (by simp)]

/-- Truncating to `L` leaves the `L`-truncated norm unchanged. -/
lemma normOver_take (l : List ℝ) (L : ℕ) : normOver (l.take L) L = normOver l L := by
  unfold normOver
  rw [List.take_take, min_self]

/-- When the query embedding comes back as an array, the retriever reaches
the score/filter/sort path. -/
lemma retrieve_eq_of_ok_arr (emb : EmbOracle) (query : String)
    (documents : List Document) (qv : List ℝ) (h : emb query = .ok (.arr qv)) :
    retrieveRelevantDocsWithEmbeddings emb query documents
      = rankAndFilter (scoreDocuments emb (.arr qv) documents) := by
  unfold retrieveRelevantDocsWithEmbeddings
  rw [h]

/-- Under the oracle induced by the real `getEmbedding`, every document is
scored on the ok branch of the per-document `try`. -/
lemma scoreDocuments_embVia (oracle : String → FetchOutcome) (queryEmbedding : JsVal)
    (documents : List Document) :
    scoreDocuments (embVia oracle) queryEmbedding documents
      = documents.map (fun doc =>
          { filename := doc.filename, content := doc.content
            score := cosineSimilarity queryEmbedding
              (.arr (getEmbedding (oracle doc.content))) }) := rfl

/-- Under the oracle induced by the real `getEmbedding`, the retriever
never takes its early-exit or catch branches. -/
lemma retrieve_embVia (oracle : String → FetchOutcome) (query : String)
    (documents : List Document) :
    retrieveRelevantDocsWithEmbeddings (embVia oracle) query documents
      = rankAndFilter (scoreDocuments (embVia oracle)
          (.arr (getEmbedding (oracle query))) documents) := rfl

/-! ### Claims -/

/-- C1: `cosineSimilarity` computes over the common length
`L = min(len a, len b)`: truncating both inputs to `L` does not change the
result; on the non-degenerate path the result is
`(Σ_{i<L} a[i]·b[i]) / (√(Σ_{i<L} a[i]²) · √(Σ_{i<L} b[i]²))`; and
`cosineSimilarity([1,0,0], [1,0]) = 1.0` — mismatched lengths are never
rejected. -/
theorem cosineSimilarity_common_length :
    (∀ a b : List ℝ,
      cosineSimilarity (.arr a) (.arr b)
        = cosineSimilarity (.arr (a.take (min a.length b.length)))
            (.arr (b.take (min a.length b.length)))) ∧
    (∀ a b : List ℝ,
      min a.length b.length ≠ 0 →
      normOver a (min a.length b.length) ≠ 0 →
      normOver b (min a.length b.length) ≠ 0 →
      cosineSimilarity (.arr a) (.arr b)
        = (∑ i ∈ Finset.range (min a.length b.length), a.getD i 0 * b.getD i 0)
          / (Real.sqrt (∑ i ∈ Finset.range (min a.length b.length), a.getD i 0 ^ 2)
             * Real.sqrt (∑ i ∈ Finset.range (min a.length b.length), b.getD i 0 ^ 2))) ∧
    cosineSimilarity (.arr [1, 0, 0]) (.arr [1, 0]) = 1 := by
  refine ⟨fun a b => ?_, fun a b hL hA hB => ?_, ?_⟩
  · rw [cosineSimilarity_arr_arr, cosineSimilarity_arr_arr]
    have h1 : (a.take (min a.length b.length)).length = min a.length b.length := by
      rw [List.length_take, Nat.min_eq_left (Nat.min_le_left _ _)]
    have h2 : (b.take (min a.length b.length)).length = min a.length b.length := by
      rw [List.length_take, Nat.min_eq_left (Nat.min_le_right _ _)]
    rw [h1, h2, min_self, dotOver_take, normOver_take, normOver_take]
  · rw [cosineSimilarity_arr_arr, if_neg hL, if_neg (by push_neg; exact ⟨hA, hB⟩)]
    rw [dotOver, zipWith_mul_sum_range]
    unfold normOver
    rw [normSq_take_eq_sum_range a _ (Nat.min_le_left _ _),
      normSq_take_eq_sum_range b _ (Nat.min_le_right _ _)]
  · rw [cosineSimilarity_arr_arr]
    norm_num [dotOver, normOver, Real.sqrt_one]

/-- C1 witness: the non-degenerate-path formula of
`cosineSimilarity_common_length` instantiated at `a = b = [1]`. -/
theorem cosineSimilarity_common_length_witness :
    cosineSimilarity (.arr [1]) (.arr [1])
      = (∑ i ∈ Finset.range (min (List.length [(1 : ℝ)]) (List.length [(1 : ℝ)])),
          List.getD [(1 : ℝ)] i 0 * List.getD [(1 : ℝ)] i 0)
        / (Real.sqrt (∑ i ∈ Finset.range (min (List.length [(1 : ℝ)]) (List.length [(1 : ℝ)])),
            List.getD [(1 : ℝ)] i 0 ^ 2)
           * Real.sqrt (∑ i ∈ Finset.range (min (List.length [(1 : ℝ)]) (List.length [(1 : ℝ)])),
            List.getD [(1 : ℝ)] i 0 ^ 2)) :=
  cosineSimilarity_common_length.2.1 [1] [1] (by norm_num)
    (by norm_num [normOver, Real.sqrt_one]) (by norm_num [normOver, Real.sqrt_one])

/-- C5: `cosineSimilarity` is total with result 0 whenever either argument
is not an array, the common length is 0, or either truncated norm is 0 (in
particular on an all-zero vector either side); the division is only reached
with both norms nonzero. -/
theorem cosineSimilarity_zero_policy :
    (∀ b : JsVal, cosineSimilarity .notArr b = 0) ∧
    (∀ a : JsVal, cosineSimilarity a .notArr = 0) ∧
    (∀ a b : List ℝ, min a.length b.length = 0 →
      cosineSimilarity (.arr a) (.arr b) = 0) ∧
    (∀ a b : List ℝ,
      normOver a (min a.length b.length) = 0 ∨ normOver b (min a.length b.length) = 0 →
      cosineSimilarity (.arr a) (.arr b) = 0) ∧
    (∀ a b : List ℝ, (∀ x ∈ a, x = 0) → cosineSimilarity (.arr a) (.arr b) = 0) ∧
    (∀ a b : List ℝ, (∀ x ∈ b, x = 0) → cosineSimilarity (.arr a) (.arr b) = 0) ∧
    (∀ a b : List ℝ, cosineSimilarity (.arr a) (.arr b) = 0 ∨
      (normOver a (min a.length b.length) ≠ 0 ∧ normOver b (min a.length b.length) ≠ 0 ∧
        cosineSimilarity (.arr a) (.arr b)
          = dotOver a b
            / (normOver a (min a.length b.length) * normOver b (min a.length b.length)))) := by
  refine ⟨fun b => by cases b <;> rfl, fun a => by cases a <;> rfl,
    fun a b h => ?_, fun a b h => ?_,
    cosineSimilarity_all_zero_left, cosineSimilarity_all_zero_right, fun a b => ?_⟩
  · rw [cosineSimilarity_arr_arr, if_pos h]
  · rw [cosineSimilarity_arr_arr]
    rcases eq_or_ne (min a.length b.length) 0 with h0 | h0
    · rw [if_pos h0]
    · rw [if_neg h0, if_pos h]
  · rw [cosineSimilarity_arr_arr]
    rcases eq_or_ne (min a.length b.length) 0 with h0 | h0
    · left; rw [if_pos h0]
    · rcases Classical.em (normOver a (min a.length b.length) = 0 ∨
        normOver b (min a.length b.length) = 0) with hn | hn
      · left; rw [if_neg h0, if_pos hn]
      · push_neg at hn
        right
        exact ⟨hn.1, hn.2, by rw [if_neg h0, if_neg (by push_neg; exact hn)]⟩

/-- C5 witness: the zero-common-length case at `a = b = []`. -/
theorem cosineSimilarity_zero_policy_witness :
    cosineSimilarity (.arr []) (.arr []) = 0 :=
  cosineSimilarity_zero_policy.2.2.1 [] [] rfl

/-- C6: for a vector with a nonzero entry, similarity with itself is 1 and
with its elementwise negation is -1. -/
theorem cosineSimilarity_self_and_neg (v : List ℝ) (h : ∃ x ∈ v, x ≠ 0) :
    cosineSimilarity (.arr v) (.arr v) = 1 ∧
    cosineSimilarity (.arr v) (.arr (v.map (fun x => -x))) = -1 := by
  have hS : 0 < (v.map (fun x => x * x)).sum := sum_sq_pos_of_exists_ne_zero h
  have hv : v.length ≠ 0 := by
    intro hlen
    rw [List.length_eq_zero] at hlen
    subst hlen
    simp at h
  have hnorm : normOver v v.length = Real.sqrt ((v.map (fun x => x * x)).sum) := by
    unfold normOver
    rw [List.take_length]
  have hne : normOver v v.length ≠ 0 := by
    rw [hnorm]
    exact ne_of_gt (Real.sqrt_pos.mpr hS)
  constructor
  · rw [cosineSimilarity_arr_arr, min_self, if_neg hv,
      if_neg (by push_neg; exact ⟨hne, hne⟩)]
    rw [dotOver, List.zipWith_same, hnorm, Real.mul_self_sqrt hS.le]
    exact div_self (ne_of_gt hS)
  · have hlen : (v.map (fun x => -x)).length = v.length := List.length_map _ _
    have hmapsq : (v.map (fun x => -x)).map (fun x => x * x) = v.map (fun x => x * x) := by
      rw [List.map_map]
      exact List.map_congr_left (fun x _ => by simp)
    have hnormB : normOver (v.map (fun x => -x)) v.length
        = Real.sqrt ((v.map (fun x => x * x)).sum) := by
      unfold normOver
      rw [← hlen, List.take_length, hmapsq]
    have hneB : normOver (v.map (fun x => -x)) v.length ≠ 0 := by
      rw [hnormB]
      exact ne_of_gt (Real.sqrt_pos.mpr hS)
    rw [cosineSimilarity_arr_arr, hlen, min_self, if_neg hv,
      if_neg (by push_neg; exact ⟨hne, hneB⟩)]
    have hdot : dotOver v (v.map (fun x => -x)) = -((v.map (fun x => x * x)).sum) := by
      rw [dotOver, List.zipWith_map_right, List.zipWith_same, ← sum_map_neg]
      exact congrArg List.sum (List.map_congr_left (fun x _ => by ring))
    rw [hdot, hnorm, hnormB, Real.mul_self_sqrt hS.le, neg_div,
      div_self (ne_of_gt hS)]

/-- C6 witness: instantiated at `v = [1]`. -/
theorem cosineSimilarity_self_and_neg_witness :
    cosineSimilarity (.arr [1]) (.arr [1]) = 1 ∧
    cosineSimilarity (.arr [1]) (.arr ([(1 : ℝ)].map (fun x => -x))) = -1 :=
  cosineSimilarity_self_and_neg [1] ⟨1, by simp⟩

/-- C2: when the query embedding is an array, the retriever's result holds
exactly the scored documents whose score is strictly above 0.5; a score of
exactly 0.5 fails the filter and 0.50001 passes it. -/
theorem retrieve_strict_threshold :
    (∀ (emb : EmbOracle) (query : String) (documents : List Document) (qv : List ℝ),
      emb query = .ok (.arr qv) →
      ∀ d : ScoredDoc,
        (d ∈ retrieveRelevantDocsWithEmbeddings emb query documents ↔
          d ∈ scoreDocuments emb (.arr qv) documents ∧ d.score > 0.5)) ∧
    ¬ ((0.5 : ℝ) > 0.5) ∧ ((0.50001 : ℝ) > 0.5) := by
  refine ⟨fun emb query documents qv h d => ?_, by norm_num, by norm_num⟩
  rw [retrieve_eq_of_ok_arr emb query documents qv h]
  unfold rankAndFilter
  rw [(List.perm_insertionSort _ _).mem_iff, List.mem_filter]
  simp only [decide_eq_true_eq]

/-- C2 witness: the membership characterization instantiated at a one-document
set whose embedding oracle always returns `[1]`. -/
theorem retrieve_strict_threshold_witness :
    (⟨"f", "c", cosineSimilarity (.arr [1]) (.arr [1])⟩ : ScoredDoc) ∈
        retrieveRelevantDocsWithEmbeddings (fun _ => .ok (.arr [1])) "q" [⟨"f", "c"⟩] ↔
      (⟨"f", "c", cosineSimilarity (.arr [1]) (.arr [1])⟩ : ScoredDoc) ∈
        scoreDocuments (fun _ => .ok (.arr [1])) (.arr [1]) [⟨"f", "c"⟩] ∧
      (⟨"f", "c", cosineSimilarity (.arr [1]) (.arr [1])⟩ : ScoredDoc).score > 0.5 :=
  retrieve_strict_threshold.1 (fun _ => .ok (.arr [1])) "q" [⟨"f", "c"⟩] [1] rfl _

/-- C3: a query embedding that is not an array makes the retriever return
`[]` for every document set, before any document is consulted. -/
theorem retrieve_empty_of_query_not_array (emb : EmbOracle) (query : String)
    (h : emb query = .ok .notArr) :
    ∀ documents : List Document,
      retrieveRelevantDocsWithEmbeddings emb query documents = [] := by
  intro documents
  unfold retrieveRelevantDocsWithEmbeddings
  rw [h]

/-- C3 witness: instantiated at an oracle that always yields a non-array. -/
theorem retrieve_empty_of_query_not_array_witness :
    retrieveRelevantDocsWithEmbeddings (fun _ => .ok .notArr) "q" [⟨"f", "c"⟩] = [] :=
  retrieve_empty_of_query_not_array (fun _ => .ok .notArr) "q" rfl [⟨"f", "c"⟩]

/-- C4: a failed embedding call returns the 512-zero fallback; cosine
similarity of that fallback with any value is 0 (either side); and a
document scored 0 never survives the `score > 0.5` filter. -/
theorem fallback_zero_vector :
    (generateEmbeddings .httpError = List.replicate 512 0) ∧
    (generateEmbeddings .transportError = List.replicate 512 0) ∧
    (∀ v : JsVal, cosineSimilarity (.arr (List.replicate 512 0)) v = 0) ∧
    (∀ v : JsVal, cosineSimilarity v (.arr (List.replicate 512 0)) = 0) ∧
    (∀ (docsWithScores : List ScoredDoc) (d : ScoredDoc),
      d.score = 0 → d ∉ rankAndFilter docsWithScores) := by
  refine ⟨rfl, rfl, fun v => ?_, fun v => ?_, fun l d hd hmem => ?_⟩
  · cases v with
    | notArr => rfl
    | arr b =>
      exact cosineSimilarity_all_zero_left _ _ (fun x hx => List.eq_of_mem_replicate hx)
  · cases v with
    | notArr => rfl
    | arr a =>
      exact cosineSimilarity_all_zero_right _ _ (fun x hx => List.eq_of_mem_replicate hx)
  · unfold rankAndFilter at hmem
    rw [(List.perm_insertionSort _ _).mem_iff, List.mem_filter] at hmem
    have hgt := hmem.2
    rw [decide_eq_true_eq, hd] at hgt
    norm_num at hgt

/-- C4 witness: a document scored 0 is not in the ranked result. -/
theorem fallback_zero_vector_witness :
    (⟨"f", "c", 0⟩ : ScoredDoc) ∉ rankAndFilter [⟨"f", "c", 0⟩] :=
  fallback_zero_vector.2.2.2.2 [⟨"f", "c", 0⟩] ⟨"f", "c", 0⟩ rfl

/-- C7: the retriever's result is sorted descending by score (each element's
score is ≥ the next one's), and the filter-then-sort stage on surviving
scores [0.9, 0.6, 0.95] yields the order [0.95, 0.9, 0.6]. -/
theorem retrieve_sorted_desc :
    (∀ (emb : EmbOracle) (query : String) (documents : List Document),
      List.Sorted (fun a b : ScoredDoc => b.score ≤ a.score)
        (retrieveRelevantDocsWithEmbeddings emb query documents)) ∧
    rankAndFilter [⟨"a", "A", 0.9⟩, ⟨"b", "B", 0.6⟩, ⟨"c", "C", 0.95⟩]
      = [⟨"c", "C", 0.95⟩, ⟨"a", "A", 0.9⟩, ⟨"b", "B", 0.6⟩] := by
  constructor
  · intro emb query documents
    unfold retrieveRelevantDocsWithEmbeddings
    split
    · exact List.sorted_nil
    · exact List.sorted_nil
    · exact List.sorted_insertionSort _ _
  · unfold rankAndFilter
    norm_num [List.filter_cons, List.insertionSort, List.orderedInsert]

/-- C8: the loader yields exactly one `Document` per `.json` file, in
order, keeping its filename; a file whose read/parse throws or whose `data`
field is absent yields the empty-content document, and the rest of the load
is unaffected. -/
theorem loadDocuments_per_file (files : List RawFile) :
    ((loadDocuments files).length
        = (files.filter (fun f => endsWithJson f.name)).length) ∧
    ((loadDocuments files).map (fun d => d.filename)
        = (files.filter (fun f => endsWithJson f.name)).map (fun f => f.name)) ∧
    (∀ f ∈ files, endsWithJson f.name = true →
      (f.parsed = .error () ∨ f.parsed = .ok none) →
      (⟨f.name, ""⟩ : Document) ∈ loadDocuments files) := by
  refine ⟨by simp [loadDocuments], ?_, ?_⟩
  · unfold loadDocuments
    rw [List.map_map]
    refine List.map_congr_left (fun f _ => ?_)
    rcases f with ⟨name, parsed⟩
    cases parsed <;> rfl
  · intro f hf hjson hparse
    unfold loadDocuments
    have hfilter : f ∈ files.filter (fun f => endsWithJson f.name) :=
      List.mem_filter.mpr ⟨hf, hjson⟩
    refine List.mem_map.mpr ⟨f, hfilter, ?_⟩
    rcases hparse with hp | hp <;> simp [hp]

/-- C8 witness: a single unparseable `.json` file becomes the
empty-content document. -/
theorem loadDocuments_per_file_witness :
    (⟨"a.json", ""⟩ : Document) ∈ loadDocuments [⟨"a.json", .error ()⟩] :=
  (loadDocuments_per_file [⟨"a.json", .error ()⟩]).2.2 ⟨"a.json", .error ()⟩
    (List.mem_singleton.mpr rfl) (by decide) (Or.inl rfl)

/-- C9: when retrieval is empty, `main` takes the
"No relevant documents found." path and the answer generator is not
invoked (the outcome does not depend on it); otherwise the context passed
to the generator is exactly the surviving documents' contents in ranked
order joined with a blank-line separator. -/
theorem main_empty_or_joined_context (emb : EmbOracle)
    (generate : String → String → String) (query : String)
    (documents : List Document) :
    (retrieveRelevantDocsWithEmbeddings emb query documents = [] →
      mainRun emb generate query documents = .noRelevantDocs) ∧
    (retrieveRelevantDocsWithEmbeddings emb query documents ≠ [] →
      mainRun emb generate query documents
        = .answered
            (String.intercalate "\n\n"
              ((retrieveRelevantDocsWithEmbeddings emb query documents).map
                (fun doc => doc.content)))
            (generate query
              (String.intercalate "\n\n"
                ((retrieveRelevantDocsWithEmbeddings emb query documents).map
                  (fun doc => doc.content))))) := by
  constructor
  · intro h
    simp [mainRun, h]
  · intro h
    have hlen : (retrieveRelevantDocsWithEmbeddings emb query documents).length ≠ 0 := by
      simpa [List.length_eq_zero] using h
    simp [mainRun, hlen]

/-- C9 witness: with an always-throwing embedding oracle and no documents,
retrieval is empty and `main` reports no relevant documents, for any
generator. -/
theorem main_empty_or_joined_context_witness :
    mainRun (fun _ => .error ()) (fun _ _ => "a") "q" [] = .noRelevantDocs :=
  (main_empty_or_joined_context (fun _ => .error ()) (fun _ _ => "a") "q" []).1 rfl

/-- C10: through the real `getEmbedding` (which never throws and always
returns an array — on failure the 512-zero fallback), the retriever never
takes its non-array early exit nor its per-document catch branch; a failed
query embedding yields `[]` only because every score is 0 and fails the
`> 0.5` filter. -/
theorem getEmbedding_total_no_early_exit :
    (∀ (oracle : String → FetchOutcome) (query : String) (documents : List Document),
      retrieveRelevantDocsWithEmbeddings (embVia oracle) query documents
        = rankAndFilter (scoreDocuments (embVia oracle)
            (.arr (getEmbedding (oracle query))) documents)) ∧
    (∀ (oracle : String → FetchOutcome) (queryEmbedding : JsVal)
      (documents : List Document),
      scoreDocuments (embVia oracle) queryEmbedding documents
        = documents.map (fun doc =>
            { filename := doc.filename, content := doc.content
              score := cosineSimilarity queryEmbedding
                (.arr (getEmbedding (oracle doc.content))) })) ∧
    (∀ (oracle : String → FetchOutcome) (query : String) (documents : List Document),
      oracle query = .httpError ∨ oracle query = .transportError →
      (∀ d ∈ scoreDocuments (embVia oracle)
          (.arr (getEmbedding (oracle query))) documents, d.score = 0) ∧
      retrieveRelevantDocsWithEmbeddings (embVia oracle) query documents = []) := by
  refine ⟨retrieve_embVia, scoreDocuments_embVia, fun oracle query documents h => ?_⟩
  have hq : getEmbedding (oracle query) = List.replicate 512 0 := by
    unfold getEmbedding generateEmbeddings
    rcases h with h | h <;> rw [h]
  have hscore : ∀ d ∈ scoreDocuments (embVia oracle)
      (.arr (getEmbedding (oracle query))) documents, d.score = 0 := by
    intro d hd
    rw [scoreDocuments_embVia, hq] at hd
    obtain ⟨doc, _, rfl⟩ := List.mem_map.mp hd
    exact cosineSimilarity_all_zero_left _ _ (fun x hx => List.eq_of_mem_replicate hx)
  refine ⟨hscore, ?_⟩
  rw [retrieve_embVia]
  unfold rankAndFilter
  rw [List.filter_eq_nil_iff.mpr (fun d hd => ?_)]
  · rfl
  · rw [decide_eq_true_eq, hscore d hd]
    norm_num

/-- C10 witness: with an oracle that always reports an HTTP failure, the
retriever returns `[]` (through the filter, not the early exit). -/
theorem getEmbedding_total_no_early_exit_witness :
    retrieveRelevantDocsWithEmbeddings (embVia (fun _ => .httpError)) "q"
      [⟨"f", "c"⟩] = [] :=
  (getEmbedding_total_no_early_exit.2.2 (fun _ => .httpError) "q" [⟨"f", "c"⟩]
    (Or.inl rfl)).2

end RagLLM
